import Mathlib

/-!
Shallow embedding of the core of `note-stats-tracker`
(`scripts/fetch_likes.py` and `scripts/fetch_stats.py`): the per-article
like collector with its untrusted-pagination termination logic, the
persisted-likes dedup index and append path, baseline/incremental target
selection, the upsert-by-date CSV stores, and the staleness-aware
metadata cache.  Files are modelled as lists of rows (lists of string
cells); the HTTP transport is modelled as an abstract page endpoint.
-/

/-- One raw like entry as extracted from a page of the v3 likes API:
`user.id` (stringified), `user.nickname`, `user.urlname`, the like's
`created_at`, and `user.follower_count`. -/
structure RawLike where
  userId : String
  nickname : String
  urlname : String
  createdAt : String
  followerCount : Nat
deriving DecidableEq, Repr

/-- One collected like record, as built in `fetch_all_likes_for_article`
(lines 87-94 of `fetch_likes.py`). -/
structure LikeRec where
  noteKey : String
  userId : String
  username : String
  urlname : String
  likedAt : String
  follower : Nat
deriving DecidableEq, Repr

/-- Build the collected record for `note_key` from a raw page entry,
mirroring the dict literal at lines 87-94 of `fetch_likes.py`. -/
def mkLikeRec (key : String) (r : RawLike) : LikeRec :=
  ⟨key, r.userId, r.nickname, r.urlname, r.createdAt, r.followerCount⟩

/-- One page of the likes endpoint: the `data.likes` list and the
`data.extra_fields.like_count` aggregate (0 when the field is missing,
matching the `.get(..., 0)` default at line 74). -/
structure LikePage where
  likes : List RawLike
  likeCount : Nat
deriving DecidableEq, Repr

/-- Outcome of `fetch_likes_api` for one page: a decoded page, an
HTTP/URL error caught inside the function (it returns `None`), or an
exception that escapes it (e.g. a JSON decode error, which is not
caught by the `except HTTPError` / `except URLError` clauses). -/
inductive PageOutcome where
  | ok (page : LikePage)
  | caught
  | raised
deriving DecidableEq, Repr

/-- Outcome of `fetch_all_likes_for_article`: a normal return carrying
the collected records, the captured `total_count`, and the number of
page requests made; an escaped exception; or fuel exhaustion of the
embedding (the Python loop is `while True`). -/
inductive FetchOut where
  | done (likes : List LikeRec) (total : Option Nat) (requests : Nat)
  | raised (requests : Nat)
  | noFuel
deriving DecidableEq, Repr

/-- The per-page dedup pass of `fetch_all_likes_for_article`
(lines 79-94): walk the page's likes, skip entries whose `user_id` was
already seen in this run, and append the rest in order, counting the
new entries (`new_in_page`). -/
def addLikes (key : String) : List RawLike → List LikeRec → List String → Nat →
    List LikeRec × List String × Nat
  | [], all, seen, n => (all, seen, n)
  | r :: rest, all, seen, n =>
    if r.userId ∈ seen then addLikes key rest all seen n
    else addLikes key rest (all ++ [mkLikeRec key r]) (seen ++ [r.userId]) (n + 1)

/-- The `while True` pagination loop of `fetch_all_likes_for_article`
(lines 65-101), with explicit fuel.  A `caught` fetch error breaks the
loop with what was collected; a `raised` one escapes; otherwise the
total is captured from the first page, an empty page breaks, the page
is deduplicated, and the loop stops when the collected count reaches
the total or the page contributed no new record. -/
def fetchLoop (ep : Nat → PageOutcome) (key : String) :
    Nat → List LikeRec → List String → Nat → Option Nat → Nat → FetchOut
  | 0, _, _, _, _, _ => .noFuel
  | fuel + 1, all, seen, start, total, reqs =>
    match ep start with
    | .raised => .raised (reqs + 1)
    | .caught => .done all total (reqs + 1)
    | .ok page =>
      let t := total.getD page.likeCount
      if page.likes.isEmpty then .done all (some t) (reqs + 1)
      else
        match addLikes key page.likes all seen 0 with
        | (all', seen', newN) =>
          if t ≤ all'.length ∨ newN = 0 then .done all' (some t) (reqs + 1)
          else fetchLoop ep key fuel all' seen' (start + 50) (some t) (reqs + 1)

/-- `fetch_all_likes_for_article` (lines 55-106): run the pagination
loop from offset 0 with an empty result, empty seen-set and no total. -/
def fetch_all_likes_for_article (ep : Nat → PageOutcome) (key : String) (fuel : Nat) : FetchOut :=
  fetchLoop ep key fuel [] [] 0 none 0

/-- The guard of the truncation warning at line 103:
`total_count is not None and len(all_likes) < total_count`. -/
def truncatedOf : FetchOut → Bool
  | .done likes (some t) _ => decide (likes.length < t)
  | _ => false

/-- The simulated adversarial endpoint's page content: before the true
end it serves the next slice of the article's distinct records; past the
end it keeps serving (repeating) the first records instead of an empty
page, never signalling termination. -/
def servePage (records : List RawLike) (start size : Nat) : List RawLike :=
  if start < records.length then (records.drop start).take size
  else records.take size

/-- A simulated endpoint over a fixed list of distinct like records that
always answers, always reports `like_count = T`, and repeats
already-returned records after the true end. -/
def simEndpointT (records : List RawLike) (T : Nat) : Nat → PageOutcome :=
  fun start => .ok ⟨servePage records start 50, T⟩

/-- The state of the persisted `likes.csv` as seen by
`load_existing_likes`: the file may be missing, its read may hard-fail
with an `OSError` (caught at line 126), or it yields a list of CSV
rows. -/
inductive FileState where
  | missing
  | readError
  | content (rows : List (List String))
deriving DecidableEq, Repr

/-- The composite key `(row[0], row[1])` of a persisted like row, taken
only when the row has at least two columns (line 123). -/
def rowKey : List String → Option (String × String)
  | a :: b :: _ => some (a, b)
  | _ => none

/-- `load_existing_likes` (lines 109-130): build the
`(note_key, like_user_id)` dedup index from `likes.csv`.  A missing
file, an empty file, or a hard read failure gives an empty index and
count 0; rows with fewer than two columns are skipped; the count is the
number of indexed rows. -/
def load_existing_likes : FileState → List (String × String) × Nat
  | .missing => ([], 0)
  | .readError => ([], 0)
  | .content [] => ([], 0)
  | .content (_ :: body) =>
    (body.filterMap rowKey, body.countP (fun r => decide (2 ≤ r.length)))

/-- The header row of `likes.csv` (`LIKES_HEADER`, lines 32-33). -/
def LIKES_HEADER : List String :=
  ["note_key", "like_user_id", "like_username", "like_user_urlname", "liked_at", "follower_count"]

/-- The CSV row written for one like record (lines 212-220). -/
def likeToRow (l : LikeRec) : List String :=
  [l.noteKey, l.userId, l.username, l.urlname, l.likedAt, toString l.follower]

/-- `append_likes_csv` (lines 193-220) applied to the file's rows: do
nothing for an empty batch, write the header first when the file is
missing or empty, then append one row per new like, never rewriting
prior content. -/
def append_likes_csv (rows : List (List String)) (newLikes : List LikeRec) : List (List String) :=
  if newLikes.isEmpty then rows
  else (if rows.isEmpty then [LIKES_HEADER] else rows) ++ newLikes.map likeToRow

/-- The composite identity of a collected like record. -/
def pairOf (l : LikeRec) : String × String := (l.noteKey, l.userId)

/-- The per-article body of `main`'s collection loops (lines 244-249 and
274-279): fetch the article's likes, keep those whose composite key is
not in the running index, append them to the run's batch and add their
keys to the index. -/
def collectStep (likesFor : String → List LikeRec)
    (st : List LikeRec × List (String × String)) (key : String) :
    List LikeRec × List (String × String) :=
  let newL := (likesFor key).filter (fun l => decide (pairOf l ∉ st.2))
  (st.1 ++ newL, st.2 ++ newL.map pairOf)

/-- One collection run of `main` over `likes.csv` rows: load the dedup
index, collect the new likes of every target article in order, and
append them to the file (both the baseline and the incremental branch
of `main` perform exactly this fold; they differ only in the key
list). -/
def run_collect (likesFor : String → List LikeRec) (keys : List String)
    (rows : List (List String)) : List (List String) :=
  let existing := (load_existing_likes (.content rows)).1
  let res := keys.foldl (collectStep likesFor) ([], existing)
  append_likes_csv rows res.1

/-- One article of the endpoint-driven run: a collection that ends in an
escaped exception (or exhausts the embedding's fuel) poisons the whole
fold, mirroring how an uncaught exception jumps out of `main`'s loop to
the handler at lines 292-296. -/
def collectStepApi (ep : String → Nat → PageOutcome) (fuel : Nat)
    (st : Option (List LikeRec × List (String × String))) (k : String) :
    Option (List LikeRec × List (String × String)) :=
  match st with
  | none => none
  | some st =>
    match fetch_all_likes_for_article (ep k) k fuel with
    | .done likes _ _ =>
      let newL := likes.filter (fun l => decide (pairOf l ∉ st.2))
      some (st.1 ++ newL, st.2 ++ newL.map pairOf)
    | _ => none

/-- A run driven by the raw page endpoints, with `main`'s top-level
`except Exception` behaviour: if any article's collection ends in an
escaped exception, the run terminates through the handler at
lines 292-296 without writing anything (`none`); otherwise the new
likes of all articles are appended. -/
def run_collect_api (ep : String → Nat → PageOutcome) (fuel : Nat) (keys : List String)
    (rows : List (List String)) : Option (List (List String)) :=
  let existing := (load_existing_likes (.content rows)).1
  match keys.foldl (collectStepApi ep fuel) (some (([] : List LikeRec), existing)) with
  | none => none
  | some r => some (append_likes_csv rows r.1)

/-- No two rows of a persisted likes-table body share the composite
`(note_key, like_user_id)` key (rows without a key are ignored). -/
def noDupKeys (body : List (List String)) : Prop :=
  (body.filterMap rowKey).Nodup

instance (body : List (List String)) : Decidable (noDupKeys body) := by
  unfold noDupKeys; infer_instance

/-- First value bound to a key in an association list, mirroring a
Python dict lookup (`.get`). -/
def lookupPair (l : List (String × Nat)) (k : String) : Option Nat :=
  (l.find? (fun p => p.1 == k)).map (fun p => p.2)

/-- `previous_data.get(note_key, 0)` (line 186). -/
def lookupPairD (l : List (String × Nat)) (k : String) (d : Nat) : Nat :=
  (lookupPair l k).getD d

/-- `find_articles_with_new_likes` (lines 173-190): with fewer than two
snapshot dates return `None` (insufficient data); otherwise compare the
latest date's per-article like counts with the previous date's
(defaulting a missing article to 0) and return the keys whose count
strictly increased, in the latest snapshot's order. -/
def find_articles_with_new_likes (byDate : String → List (String × Nat))
    (sortedDates : List String) : Option (List String) :=
  if sortedDates.length < 2 then none
  else
    let latest := sortedDates.getLastD ""
    let previous := sortedDates.dropLast.getLastD ""
    some (((byDate latest).filter
      (fun p => decide (lookupPairD (byDate previous) p.1 0 < p.2))).map Prod.fst)

/-- The collection mode chosen by `main` (lines 234-264). -/
inductive Mode where
  | baseline
  | incremental
  | insufficient
deriving DecidableEq, Repr

/-- `main`'s target selection (lines 234-264): with an empty persisted
like store (`existing_count == 0`) the mode is baseline and the targets
are all articles of the latest snapshot date; otherwise the incremental
comparison runs, `None` meaning insufficient data (run skipped). -/
def select_targets (existingCount : Nat) (byDate : String → List (String × Nat))
    (sortedDates : List String) : Mode × List String :=
  if existingCount = 0 then
    (Mode.baseline, (byDate (sortedDates.getLastD "")).map Prod.fst)
  else
    match find_articles_with_new_likes byDate sortedDates with
    | none => (Mode.insufficient, [])
    | some changed => (Mode.incremental, changed)

/-- `_remove_rows_by_date` (lines 339-353 of `fetch_stats.py`): a
missing or empty file gives no kept rows and no header; otherwise the
first row is the header and the kept rows are the body rows whose first
cell differs from the target date, in their original order. -/
def removeRowsByDate (rows : List (List String)) (dateStr : String) :
    List (List String) × Option (List String) :=
  match rows with
  | [] => ([], none)
  | header :: body =>
    (body.filter (fun r => decide (r.headD "" ≠ dateStr)), some header)

/-- The articles-snapshot schema written by `save_articles_csv`
(`new_header`, lines 358-359). -/
def ARTICLES_HEADER : List String :=
  ["date", "note_id", "key", "title", "published_at", "created_at", "updated_at",
   "age_days", "read_count", "like_count", "comment_count"]

/-- One article's values as written by `save_articles_csv`
(lines 369-381); every cell is kept in its serialized CSV form. -/
structure Article where
  id : String
  key : String
  name : String
  published_at : String
  created_at : String
  updated_at : String
  age_days : String
  read_count : String
  like_count : String
  comment_count : String
deriving DecidableEq, Repr

/-- The CSV row written for one article on a given date (lines 369-381). -/
def articleRow (today : String) (a : Article) : List String :=
  [today, a.id, a.key, a.name, a.published_at, a.created_at, a.updated_at,
   a.age_days, a.read_count, a.like_count, a.comment_count]

/-- `save_articles_csv` (lines 355-383): drop the target date's existing
rows, then rewrite the file as the new header, the surviving rows
verbatim, and one row per article for the target date (the old header is
discarded). -/
def save_articles_csv (today : String) (articles : List Article)
    (file : List (List String)) : List (List String) :=
  let existing := (removeRowsByDate file today).1
  ARTICLES_HEADER :: (existing ++ articles.map (articleRow today))

/-- The default daily-summary schema (line 391), used only when the file
had no header. -/
def DAILY_HEADER : List String :=
  ["date", "article_count", "total_pv", "total_like", "total_comment", "follower_count"]

/-- The `follower_count` cell: empty when the count is unknown
(line 404). -/
def followerCell : Option Nat → String
  | some n => toString n
  | none => ""

/-- The daily-summary row written for the target date (lines 398-405). -/
def dailyRow (today : String) (total_pv total_like total_comment article_count : Nat)
    (follower : Option Nat) : List String :=
  [today, toString article_count, toString total_pv, toString total_like,
   toString total_comment, followerCell follower]

/-- `save_daily_summary_csv` (lines 386-407): drop the target date's
existing row, keep the file's own header when it had one (the default
schema is used only for a missing or empty file), then rewrite the file
as that header, the surviving rows verbatim, and the new summary row. -/
def save_daily_summary_csv (today : String)
    (total_pv total_like total_comment article_count : Nat) (follower : Option Nat)
    (file : List (List String)) : List (List String) :=
  let res := removeRowsByDate file today
  let header := res.2.getD DAILY_HEADER
  header :: (res.1 ++ [dailyRow today total_pv total_like total_comment article_count follower])

/-- One entry of `v3_dates_cache.json` (see `load_dates_cache`,
lines 228-247): the three timestamps plus the date the entry was
fetched. -/
structure CacheEntry where
  published_at : String
  created_at : String
  updated_at : String
  fetched_at : String
deriving DecidableEq, Repr

/-- The timestamps returned by `fetch_note_detail` (lines 269-292). -/
structure NoteDates where
  published_at : String
  created_at : String
  updated_at : String
deriving DecidableEq, Repr

/-- One article record as enriched by `fetch_note_dates`: its key, the
three timestamps, and the derived age in days (`none` when
`_calc_age_days` returns the empty value). -/
structure NoteInfo where
  key : String
  published_at : String
  created_at : String
  updated_at : String
  age_days : Option Int
deriving DecidableEq, Repr

/-- `_is_cache_stale` (lines 256-266), parameterized by the
`%Y-%m-%d` date reading (`datetime.strptime` composed with an absolute
day count; `none` models a `ValueError`): an entry with no `fetched_at`
is stale, an unparseable date is stale, and otherwise the entry is stale
exactly when at least 7 days elapsed. -/
def isCacheStale (parse : String → Option Int) (entry : CacheEntry) (todayStr : String) : Bool :=
  if entry.fetched_at = "" then true
  else
    match parse entry.fetched_at, parse todayStr with
    | some f, some t => decide (7 ≤ t - f)
    | _, _ => true

/-- Dict lookup on the cache document. -/
def lookupEntry (cache : List (String × CacheEntry)) (k : String) : Option CacheEntry :=
  (cache.find? (fun p => p.1 == k)).map (fun p => p.2)

/-- Dict assignment on the cache document: replace the key's entry in
place, or append a fresh binding. -/
def updateCache (cache : List (String × CacheEntry)) (k : String) (v : CacheEntry) :
    List (String × CacheEntry) :=
  if (cache.find? (fun p => p.1 == k)).isSome then
    cache.map (fun p => if p.1 == k then (k, v) else p)
  else cache ++ [(k, v)]

/-- The loop body of `fetch_note_dates` (lines 312-329) for one article,
parameterized by the detail endpoint and by the age computation
(`_calc_age_days`, whose date parsing is external): a cached entry that
is not stale is used as-is without a fetch; otherwise the detail
endpoint is called and its dates are stored in the cache with
`fetched_at = today`.  Returns the enriched article, the updated cache,
and whether a fetch happened. -/
def processNote (detail : String → NoteDates) (parse : String → Option Int)
    (calcAge : String → String → Option Int) (today : String)
    (cache : List (String × CacheEntry)) (note : NoteInfo) :
    NoteInfo × List (String × CacheEntry) × Bool :=
  match lookupEntry cache note.key with
  | some entry =>
    if isCacheStale parse entry today then
      let d := detail note.key
      ({ note with published_at := d.published_at, created_at := d.created_at,
                   updated_at := d.updated_at,
                   age_days := calcAge today d.published_at },
       updateCache cache note.key ⟨d.published_at, d.created_at, d.updated_at, today⟩,
       true)
    else
      ({ note with published_at := entry.published_at, created_at := entry.created_at,
                   updated_at := entry.updated_at,
                   age_days := calcAge today entry.published_at },
       cache, false)
  | none =>
    let d := detail note.key
    ({ note with published_at := d.published_at, created_at := d.created_at,
                 updated_at := d.updated_at,
                 age_days := calcAge today d.published_at },
     updateCache cache note.key ⟨d.published_at, d.created_at, d.updated_at, today⟩,
     true)

/-- `fetch_note_dates` (lines 307-336) over an in-memory cache:
process every article in order, threading the cache and counting the
fetches. -/
def fetch_note_dates (detail : String → NoteDates) (parse : String → Option Int)
    (calcAge : String → String → Option Int) (today : String)
    (notes : List NoteInfo) (cache : List (String × CacheEntry)) :
    List NoteInfo × List (String × CacheEntry) × Nat :=
  notes.foldl
    (fun acc note =>
      let r := processNote detail parse calcAge today acc.2.1 note
      (acc.1 ++ [r.1], r.2.1, acc.2.2 + if r.2.2 then 1 else 0))
    ([], cache, 0)

lemma filterMap_rowKey_eq (body : List (List String)) :
    body.filterMap rowKey =
      (body.filter (fun r => decide (2 ≤ r.length))).map
        (fun r => (r.headD "", r.tail.headD "")) := by
  induction body with
  | nil => rfl
  | cons r rest ih =>
    match r with
    | [] => simpa [rowKey, List.filterMap_cons, List.filter_cons] using ih
    | [a] => simpa [rowKey, List.filterMap_cons, List.filter_cons] using ih
    | a :: b :: rs => simp [rowKey, List.filterMap_cons, List.filter_cons, ih]

lemma save_articles_csv_eq (D : String) (a : List Article) (f : List (List String)) :
    save_articles_csv D a f =
      ARTICLES_HEADER ::
        (((f.drop 1).filter (fun r => decide (r.headD "" ≠ D))) ++ a.map (articleRow D)) := by
  cases f <;> rfl

lemma filter_articleRows_ne (D : String) (a : List Article) :
    (a.map (articleRow D)).filter (fun r => decide (r.headD "" ≠ D)) = [] := by
  rw [List.filter_eq_nil_iff]
  intro r hr
  obtain ⟨x, _, rfl⟩ := List.mem_map.mp hr
  simp [articleRow]

lemma filter_articleRows_eq (D : String) (a : List Article) :
    (a.map (articleRow D)).filter (fun r => decide (r.headD "" = D)) = a.map (articleRow D) := by
  rw [List.filter_eq_self]
  intro r hr
  obtain ⟨x, _, rfl⟩ := List.mem_map.mp hr
  simp [articleRow]

/-- C7: loading the dedup index from a missing `likes.csv`, an empty
one, or one whose read hard-fails always yields the empty index (and
count 0) instead of raising; on a readable file the index holds exactly
the `(note_key, like_user_id)` pairs of the body rows having at least
two columns, rows with fewer columns being skipped. -/
theorem load_existing_likes_degrades_gracefully :
    load_existing_likes FileState.missing = ([], 0)
    ∧ load_existing_likes FileState.readError = ([], 0)
    ∧ load_existing_likes (FileState.content []) = ([], 0)
    ∧ (∀ header body, load_existing_likes (FileState.content (header :: body)) =
        ((body.filter (fun r => decide (2 ≤ r.length))).map
           (fun r => (r.headD "", r.tail.headD "")),
         (body.filter (fun r => decide (2 ≤ r.length))).length))
    ∧ ∀ row : List String, row.length < 2 → rowKey row = none := by
  refine ⟨rfl, rfl, rfl, ?_, ?_⟩
  · intro header body
    simp [load_existing_likes, filterMap_rowKey_eq, List.countP_eq_length_filter]
  · intro row hrow
    match row with
    | [] => rfl
    | [a] => rfl
    | a :: b :: rs => exact absurd hrow (by simp only [List.length_cons]; omega)

theorem load_existing_likes_degrades_gracefully_witness :
    rowKey [""] = none :=
  load_existing_likes_degrades_gracefully.2.2.2.2 [""] (by decide)

/-- C8 as stated is false: for the daily-summary upsert, an existing
file whose header differs from the expected schema keeps its old
header; upserting into a file headed `["old"]` rewrites the header as
`["old"]`, not as the new schema. -/
theorem daily_summary_header_counterexample :
    (save_daily_summary_csv "2024-01-02" 2 3 4 1 none
        [["old"], ["2024-01-01", "1", "2", "3", "4", ""]]).headD [] = ["old"]
    ∧ ["old"] ≠ DAILY_HEADER := by
  exact ⟨rfl, by decide⟩

/-- C8 amended: the articles upsert always rewrites the file under the
new schema header (old rows carried forward verbatim), while the
daily-summary upsert keeps a non-empty file's own header verbatim and
adopts the default schema only when the file was missing or empty. -/
theorem upsert_header_policy :
    (∀ (D : String) (a : List Article) (f : List (List String)),
      save_articles_csv D a f =
        ARTICLES_HEADER ::
          (((f.drop 1).filter (fun r => decide (r.headD "" ≠ D))) ++ a.map (articleRow D)))
    ∧ (∀ (today : String) (pv li co ac : Nat) (fo : Option Nat)
        (h : List String) (body : List (List String)),
        save_daily_summary_csv today pv li co ac fo (h :: body) =
          h :: (body.filter (fun r => decide (r.headD "" ≠ today))
                ++ [dailyRow today pv li co ac fo]))
    ∧ (∀ (today : String) (pv li co ac : Nat) (fo : Option Nat),
        save_daily_summary_csv today pv li co ac fo [] =
          DAILY_HEADER :: [dailyRow today pv li co ac fo]) :=
  ⟨fun D a f => save_articles_csv_eq D a f,
   fun _ _ _ _ _ _ _ _ => rfl,
   fun _ _ _ _ _ _ => rfl⟩

/-- C3: upserting date `D` twice (first `a1`, then `a2`) leaves the file
exactly as a single upsert of `a2` would: the header, every pre-existing
row of another date in its original order, and exactly `a2`'s rows as
the rows for `D` (none of `a1`'s rows survive). -/
theorem upsert_by_date_idempotent (D : String) (a1 a2 : List Article)
    (f : List (List String)) (hf : ∀ r ∈ f, r ≠ []) :
    save_articles_csv D a2 (save_articles_csv D a1 f) = save_articles_csv D a2 f
    ∧ save_articles_csv D a2 f =
        ARTICLES_HEADER ::
          (((f.drop 1).filter (fun r => decide (r.headD "" ≠ D))) ++ a2.map (articleRow D))
    ∧ ((save_articles_csv D a2 (save_articles_csv D a1 f)).drop 1).filter
        (fun r => decide (r.headD "" = D)) = a2.map (articleRow D) := by
  have h1 : save_articles_csv D a2 (save_articles_csv D a1 f) = save_articles_csv D a2 f := by
    rw [save_articles_csv_eq D a1 f, save_articles_csv_eq, save_articles_csv_eq D a2 f]
    simp [List.filter_append, filter_articleRows_ne, articleRow]
  refine ⟨h1, save_articles_csv_eq D a2 f, ?_⟩
  rw [h1, save_articles_csv_eq D a2 f]
  simp only [List.drop_succ_cons, List.drop_zero, List.filter_append, filter_articleRows_eq]
  have : (((f.drop 1).filter (fun r => decide (r.headD "" ≠ D))).filter
      (fun r => decide (r.headD "" = D))) = [] := by
    rw [List.filter_eq_nil_iff]
    intro r hr
    have := (List.mem_filter.mp hr).2
    simp_all
  rw [this, List.nil_append]

theorem upsert_by_date_idempotent_witness :
    save_articles_csv "d2" [⟨"2", "k2", "t2", "", "", "", "", "9", "9", "1"⟩]
        (save_articles_csv "d2" [⟨"1", "k1", "t1", "", "", "", "", "5", "3", "0"⟩]
          [["h"], ["d1", "x"]])
      = save_articles_csv "d2" [⟨"2", "k2", "t2", "", "", "", "", "9", "9", "1"⟩]
          [["h"], ["d1", "x"]] :=
  (upsert_by_date_idempotent "d2" [⟨"1", "k1", "t1", "", "", "", "", "5", "3", "0"⟩]
    [⟨"2", "k2", "t2", "", "", "", "", "9", "9", "1"⟩] [["h"], ["d1", "x"]] (by decide)).1

lemma lookupPair_eq_some_iff (l : List (String × Nat)) (hnd : (l.map Prod.fst).Nodup)
    (k : String) (c : Nat) : (k, c) ∈ l ↔ lookupPair l k = some c := by
  induction l with
  | nil => simp [lookupPair]
  | cons p rest ih =>
    obtain ⟨a, b⟩ := p
    rw [List.map_cons, List.nodup_cons] at hnd
    obtain ⟨hna, hrest⟩ := hnd
    by_cases hak : a = k
    · subst hak
      rw [lookupPair, List.find?_cons_of_pos _ (by simp)]
      constructor
      · intro h
        rcases List.mem_cons.mp h with h | h
        · cases h; rfl
        · exact absurd (List.mem_map_of_mem Prod.fst h) hna
      · intro h
        have hb : b = c := by simpa using h
        subst hb
        exact List.mem_cons_self _ _
    · rw [lookupPair, List.find?_cons_of_neg _ (by simpa using fun h => hak h)]
      rw [← lookupPair]
      rw [← ih hrest]
      simp only [List.mem_cons, Prod.mk.injEq, or_iff_right_iff_imp]
      rintro ⟨rfl, -⟩
      exact absurd rfl hak

lemma lookupPair_unique (l : List (String × Nat)) (hnd : (l.map Prod.fst).Nodup)
    (k : String) (c c' : Nat) (h : (k, c) ∈ l) (h' : (k, c') ∈ l) : c = c' := by
  have := (lookupPair_eq_some_iff l hnd k c).mp h
  have := (lookupPair_eq_some_iff l hnd k c').mp h'
  simp_all

/-- C4: with an empty persisted like store the run is a baseline run
whose targets are exactly the articles of the most recent snapshot
date; with a non-empty store and at least two snapshot dates the run is
incremental and an article of the latest date is a target iff its like
count on the latest date strictly exceeds its count on the previous
date (an equal or smaller count never makes it a target). -/
theorem select_targets_modes (existingCount : Nat)
    (byDate : String → List (String × Nat)) (sortedDates : List String)
    (hnd : ((byDate (sortedDates.getLastD "")).map Prod.fst).Nodup) :
    (existingCount = 0 →
      select_targets existingCount byDate sortedDates =
        (Mode.baseline, (byDate (sortedDates.getLastD "")).map Prod.fst))
    ∧ (existingCount ≠ 0 → 2 ≤ sortedDates.length →
      (select_targets existingCount byDate sortedDates).1 = Mode.incremental
      ∧ ∀ k, k ∈ (select_targets existingCount byDate sortedDates).2 ↔
          ∃ c, lookupPair (byDate (sortedDates.getLastD "")) k = some c ∧
            lookupPairD (byDate (sortedDates.dropLast.getLastD "")) k 0 < c) := by
  constructor
  · intro h0
    simp [select_targets, h0]
  · intro hne hlen
    have hsel : select_targets existingCount byDate sortedDates =
        (Mode.incremental,
          ((byDate (sortedDates.getLastD "")).filter
            (fun p => decide (lookupPairD (byDate (sortedDates.dropLast.getLastD "")) p.1 0 < p.2))).map
            Prod.fst) := by
      rw [select_targets, if_neg hne, find_articles_with_new_likes, if_neg (by omega)]
    refine ⟨by rw [hsel], ?_⟩
    intro k
    rw [hsel]
    simp only [List.mem_map, List.mem_filter]
    constructor
    · rintro ⟨⟨k', c⟩, ⟨hmem, hcond⟩, rfl⟩
      refine ⟨c, (lookupPair_eq_some_iff _ hnd _ _).mp hmem, by simpa using hcond⟩
    · rintro ⟨c, hl, hc⟩
      exact ⟨(k, c), ⟨(lookupPair_eq_some_iff _ hnd _ _).mpr hl, by simpa using hc⟩, rfl⟩

theorem select_targets_modes_witness :
    (0 = 0 →
      select_targets 0 (fun d => if d = "2024-01-02" then [("x", 5), ("y", 5)] else [("x", 3), ("y", 5)])
          ["2024-01-01", "2024-01-02"] =
        (Mode.baseline, [("x", 5), ("y", 5)].map Prod.fst))
    ∧ (0 ≠ 0 → 2 ≤ (["2024-01-01", "2024-01-02"] : List String).length →
      (select_targets 0 (fun d => if d = "2024-01-02" then [("x", 5), ("y", 5)] else [("x", 3), ("y", 5)])
          ["2024-01-01", "2024-01-02"]).1 = Mode.incremental
      ∧ ∀ k, k ∈ (select_targets 0
            (fun d => if d = "2024-01-02" then [("x", 5), ("y", 5)] else [("x", 3), ("y", 5)])
            ["2024-01-01", "2024-01-02"]).2 ↔
          ∃ c, lookupPair (if ("2024-01-02" : String) = "2024-01-02" then [("x", 5), ("y", 5)] else [("x", 3), ("y", 5)]) k = some c ∧
            lookupPairD (if ("2024-01-01" : String) = "2024-01-02" then [("x", 5), ("y", 5)] else [("x", 3), ("y", 5)]) k 0 < c) :=
  select_targets_modes 0
    (fun d => if d = "2024-01-02" then [("x", 5), ("y", 5)] else [("x", 3), ("y", 5)])
    ["2024-01-01", "2024-01-02"] (by decide)

/-- C10: in an incremental comparison, an article present in the latest
snapshot date but absent from the previous one is compared against a
previous count of 0: the selection still returns a target list (never
the insufficient-data `None`), and that article is a target iff its
latest like count is strictly positive. -/
theorem new_article_compared_against_zero
    (byDate : String → List (String × Nat)) (sortedDates : List String) (k : String) (c : Nat)
    (hlen : 2 ≤ sortedDates.length)
    (hnd : ((byDate (sortedDates.getLastD "")).map Prod.fst).Nodup)
    (hmem : (k, c) ∈ byDate (sortedDates.getLastD ""))
    (habs : lookupPair (byDate (sortedDates.dropLast.getLastD "")) k = none) :
    ∃ changed, find_articles_with_new_likes byDate sortedDates = some changed
      ∧ (k ∈ changed ↔ 0 < c) := by
  rw [find_articles_with_new_likes, if_neg (by omega)]
  refine ⟨_, rfl, ?_⟩
  have hd : lookupPairD (byDate (sortedDates.dropLast.getLastD "")) k 0 = 0 := by
    rw [lookupPairD, habs]; rfl
  simp only [List.mem_map, List.mem_filter, decide_eq_true_eq]
  constructor
  · rintro ⟨⟨k', c'⟩, ⟨hmem', hcond⟩, rfl⟩
    have hcc : c' = c := lookupPair_unique _ hnd _ _ _ hmem' hmem
    subst hcc
    rw [hd] at hcond
    exact hcond
  · intro hc
    refine ⟨(k, c), ⟨hmem, ?_⟩, rfl⟩
    rw [hd]
    exact hc

theorem new_article_compared_against_zero_witness :
    ∃ changed, find_articles_with_new_likes
        (fun d => if d = "2024-01-02" then [("fresh", 4)] else [])
        ["2024-01-01", "2024-01-02"] = some changed
      ∧ ("fresh" ∈ changed ↔ 0 < 4) :=
  new_article_compared_against_zero
    (fun d => if d = "2024-01-02" then [("fresh", 4)] else [])
    ["2024-01-01", "2024-01-02"] "fresh" 4 (by decide) (by decide) (by decide) (by decide)

lemma collect_fold_api_eq (ep : String → Nat → PageOutcome)
    (likesF : String → List LikeRec) (fuel : Nat) :
    ∀ (keys : List String) (st : List LikeRec × List (String × String)),
      (∀ k ∈ keys, ∃ t r, fetch_all_likes_for_article (ep k) k fuel = .done (likesF k) t r) →
      keys.foldl (collectStepApi ep fuel) (some st) =
        some (keys.foldl (collectStep likesF) st)
  | [], st, _ => rfl
  | k :: ks, st, h => by
    obtain ⟨t, r, hk⟩ := h k (List.mem_cons_self k ks)
    rw [List.foldl_cons, List.foldl_cons]
    have hstep : collectStepApi ep fuel (some st) k = some (collectStep likesF st k) := by
      rw [collectStepApi, hk]
      rfl
    rw [hstep]
    exact collect_fold_api_eq ep likesF fuel ks _ (fun k' hk' => h k' (List.mem_cons_of_mem _ hk'))

/-- C6 as stated is false for response-decode errors: with an endpoint
whose offset-0 page decodes and whose offset-50 fetch raises a decode
error, `fetch_all_likes_for_article` does not return the records of the
first page — the exception escapes (`raised`), and a two-article run
whose first article hits that endpoint is aborted before its second
article, persisting nothing. -/
theorem decode_error_aborts_run :
    fetch_all_likes_for_article
        (fun s => if s = 0 then .ok ⟨[⟨"u1", "", "", "", 0⟩], 5⟩ else .raised) "a" 5
      = .raised 2
    ∧ run_collect_api
        (fun k => if k = "a"
          then (fun s => if s = 0 then .ok ⟨[⟨"u1", "", "", "", 0⟩], 5⟩ else .raised)
          else simEndpointT [⟨"u2", "", "", "", 0⟩] 1)
        5 ["a", "b"] [] = none := by
  constructor
  · rfl
  · rfl

/-- C6 amended: a page fetch failing with a transport error (HTTP or
URL error, caught inside `fetch_likes_api`) ends collection for that
article immediately, returning exactly the records collected from the
pages before the failure with no retry; and a run all of whose article
collections return normally (as transport-failed ones do) is never
aborted: it processes every article exactly as the pure per-article
fold does.  A response-decode error, by contrast, escapes and aborts
the run (see the counterexample). -/
theorem transport_failure_early_stop :
    (∀ (ep : Nat → PageOutcome) (key : String) (fuel : Nat) (all : List LikeRec)
        (seen : List String) (s : Nat) (total : Option Nat) (reqs : Nat),
      ep s = PageOutcome.caught →
      fetchLoop ep key (fuel + 1) all seen s total reqs = .done all total (reqs + 1))
    ∧ (∀ (ep : String → Nat → PageOutcome) (likesF : String → List LikeRec) (fuel : Nat)
        (keys : List String) (rows : List (List String)),
      (∀ k ∈ keys, ∃ t r, fetch_all_likes_for_article (ep k) k fuel = .done (likesF k) t r) →
      run_collect_api ep fuel keys rows = some (run_collect likesF keys rows)) := by
  constructor
  · intro ep key fuel all seen s total reqs h
    rw [fetchLoop, h]
  · intro ep likesF fuel keys rows h
    rw [run_collect_api, run_collect, collect_fold_api_eq ep likesF fuel keys _ h]

theorem transport_failure_early_stop_witness :
    fetchLoop (fun _ => PageOutcome.caught) "k" 1
        [mkLikeRec "k" ⟨"u1", "", "", "", 0⟩] ["u1"] 50 (some 3) 1
      = .done [mkLikeRec "k" ⟨"u1", "", "", "", 0⟩] (some 3) 2
    ∧ run_collect_api
        (fun k => if k = "a" then (fun _ => PageOutcome.caught)
          else simEndpointT [⟨"u2", "", "", "", 0⟩] 1) 2 ["a", "b"] []
      = some (run_collect
          (fun k => if k = "a" then [] else [mkLikeRec "b" ⟨"u2", "", "", "", 0⟩])
          ["a", "b"] []) := by
  constructor
  · exact transport_failure_early_stop.1 (fun _ => PageOutcome.caught) "k" 0
      [mkLikeRec "k" ⟨"u1", "", "", "", 0⟩] ["u1"] 50 (some 3) 1 rfl
  · refine transport_failure_early_stop.2 _
      (fun k => if k = "a" then [] else [mkLikeRec "b" ⟨"u2", "", "", "", 0⟩]) 2 ["a", "b"] [] ?_
    intro k hk
    rcases List.mem_cons.mp hk with rfl | hk
    · exact ⟨none, 1, rfl⟩
    · rcases List.mem_cons.mp hk with rfl | hk
      · exact ⟨some 1, 1, rfl⟩
      · cases hk

lemma addLikes_all_new (key : String) :
    ∀ (page : List RawLike) (all : List LikeRec) (seen : List String) (n : Nat),
      (page.map RawLike.userId).Nodup →
      (∀ r ∈ page, r.userId ∉ seen) →
      addLikes key page all seen n =
        (all ++ page.map (mkLikeRec key), seen ++ page.map RawLike.userId, n + page.length)
  | [], all, seen, n, _, _ => by simp [addLikes]
  | r :: rest, all, seen, n, hnd, hnew => by
    rw [List.map_cons, List.nodup_cons] at hnd
    rw [addLikes, if_neg (hnew r (List.mem_cons_self r rest))]
    rw [addLikes_all_new key rest _ _ _ hnd.2 ?hfresh]
    case hfresh =>
      intro r' hr' hmem
      rcases List.mem_append.mp hmem with h | h
      · exact hnew r' (List.mem_cons_of_mem r hr') h
      · rw [List.mem_singleton] at h
        exact hnd.1 (h ▸ List.mem_map_of_mem RawLike.userId hr')
    simp only [List.map_cons, List.append_assoc, List.singleton_append, List.length_cons,
      Prod.mk.injEq, and_true, true_and]
    omega

lemma addLikes_none_new (key : String) :
    ∀ (page : List RawLike) (all : List LikeRec) (seen : List String) (n : Nat),
      (∀ r ∈ page, r.userId ∈ seen) →
      addLikes key page all seen n = (all, seen, n)
  | [], all, seen, n, _ => rfl
  | r :: rest, all, seen, n, hseen => by
    rw [addLikes, if_pos (hseen r (List.mem_cons_self r rest))]
    exact addLikes_none_new key rest all seen n (fun r' hr' => hseen r' (List.mem_cons_of_mem r hr'))

lemma take_disjoint_drop (records : List RawLike) (hnd : (records.map RawLike.userId).Nodup)
    (s : Nat) (r : RawLike) (hr : r ∈ records.drop s)
    (hmem : r.userId ∈ (records.take s).map RawLike.userId) : False := by
  have hsplit := List.nodup_append.mp
    (by rw [List.take_append_drop] ; exact hnd :
      ((records.map RawLike.userId).take s ++ (records.map RawLike.userId).drop s).Nodup)
  have h1 : r.userId ∈ (records.map RawLike.userId).drop s := by
    rw [← List.map_drop]
    exact List.mem_map_of_mem RawLike.userId hr
  have h2 : r.userId ∈ (records.map RawLike.userId).take s := by
    rw [← List.map_take]
    exact hmem
  exact hsplit.2.2 h2 h1

lemma fetchLoop_sim_step (records : List RawLike) (key : String) (T : Nat)
    (hnd : (records.map RawLike.userId).Nodup) (fuel s reqs : Nat) (hs : s < records.length) :
    fetchLoop (simEndpointT records T) key (fuel + 1)
        ((records.take s).map (mkLikeRec key)) ((records.take s).map RawLike.userId)
        s (some T) reqs
      = if T ≤ min (s + 50) records.length ∨ min 50 (records.length - s) = 0 then
          .done ((records.take (s + 50)).map (mkLikeRec key)) (some T) (reqs + 1)
        else
          fetchLoop (simEndpointT records T) key fuel
            ((records.take (s + 50)).map (mkLikeRec key))
            ((records.take (s + 50)).map RawLike.userId) (s + 50) (some T) (reqs + 1) := by
  have hserve : servePage records s 50 = (records.drop s).take 50 := by
    rw [servePage, if_pos hs]
  have hlen_page : ((records.drop s).take 50).length = min 50 (records.length - s) := by
    simp
  have hne : ((records.drop s).take 50).isEmpty = false := by
    rw [List.isEmpty_eq_false_iff_exists_mem]
    have : 0 < ((records.drop s).take 50).length := by omega
    exact List.exists_mem_of_length_pos this
  have hnd_page : (((records.drop s).take 50).map RawLike.userId).Nodup := by
    rw [List.map_take, List.map_drop]
    exact hnd.sublist ((List.take_sublist _ _).trans (List.drop_sublist _ _))
  have hdisj : ∀ r ∈ (records.drop s).take 50,
      r.userId ∉ (records.take s).map RawLike.userId := by
    intro r hr hmem
    exact take_disjoint_drop records hnd s r (List.mem_of_mem_take hr) hmem
  have htake1 : (records.take s).map (mkLikeRec key) ++
      ((records.drop s).take 50).map (mkLikeRec key) =
        (records.take (s + 50)).map (mkLikeRec key) := by
    rw [← List.map_append, ← List.take_add]
  have htake2 : (records.take s).map RawLike.userId ++
      ((records.drop s).take 50).map RawLike.userId =
        (records.take (s + 50)).map RawLike.userId := by
    rw [← List.map_append, ← List.take_add]
  have hep : simEndpointT records T s = PageOutcome.ok ⟨(records.drop s).take 50, T⟩ := by
    simp only [simEndpointT, hserve]
  rw [fetchLoop]
  simp only [hep, Option.getD_some, hne, Bool.false_eq_true, if_false,
    addLikes_all_new key _ _ _ _ hnd_page hdisj, htake1, htake2, Nat.zero_add,
    List.length_map, List.length_take, List.length_drop, hlen_page]

lemma fetchLoop_sim_tail (records : List RawLike) (key : String) (T : Nat)
    (fuel s reqs : Nat) (hs : records.length ≤ s) :
    fetchLoop (simEndpointT records T) key (fuel + 1)
        (records.map (mkLikeRec key)) (records.map RawLike.userId) s (some T) reqs
      = .done (records.map (mkLikeRec key)) (some T) (reqs + 1) := by
  have hserve : servePage records s 50 = records.take 50 := by
    rw [servePage, if_neg (by omega)]
  have hep : simEndpointT records T s = PageOutcome.ok ⟨records.take 50, T⟩ := by
    simp only [simEndpointT, hserve]
  rcases records with _ | ⟨r, rest⟩
  · rw [fetchLoop]
    simp only [hep, List.take_nil, List.isEmpty_nil, if_true, Option.getD_some, List.map_nil]
  · have hseen : ∀ x ∈ (r :: rest).take 50, x.userId ∈ (r :: rest).map RawLike.userId :=
      fun x hx => List.mem_map_of_mem _ (List.mem_of_mem_take hx)
    have hne : ((r :: rest).take 50).isEmpty = false := rfl
    rw [fetchLoop]
    simp only [hep, Option.getD_some, hne, Bool.false_eq_true, if_false,
      addLikes_none_new key _ _ _ _ hseen]
    rw [if_pos (Or.inr trivial)]

lemma fetchLoop_sim_complete (records : List RawLike) (key : String)
    (hnd : (records.map RawLike.userId).Nodup) :
    ∀ (fuel s reqs : Nat), s < records.length → records.length ≤ s + 50 * fuel →
      fetchLoop (simEndpointT records records.length) key fuel
          ((records.take s).map (mkLikeRec key)) ((records.take s).map RawLike.userId)
          s (some records.length) reqs
        = .done (records.map (mkLikeRec key)) (some records.length)
            (reqs + (records.length - s + 49) / 50)
  | 0, s, reqs, hs, hfuel => by omega
  | fuel + 1, s, reqs, hs, hfuel => by
    rw [fetchLoop_sim_step records key records.length hnd fuel s reqs hs]
    by_cases hend : records.length ≤ s + 50
    · rw [if_pos (Or.inl (by omega))]
      rw [List.take_of_length_le (by omega : records.length ≤ s + 50)]
      simp only [FetchOut.done.injEq, true_and, and_true]
      omega
    · rw [if_neg (by omega)]
      rw [fetchLoop_sim_complete records key hnd fuel (s + 50) (reqs + 1) (by omega) (by omega)]
      simp only [FetchOut.done.injEq, true_and, and_true]
      omega

lemma fetchLoop_sim_trunc (records : List RawLike) (key : String) (T : Nat)
    (hnd : (records.map RawLike.userId).Nodup) (hT : records.length < T) :
    ∀ (fuel s reqs : Nat), s < records.length → records.length - s + 50 ≤ 50 * fuel →
      fetchLoop (simEndpointT records T) key fuel
          ((records.take s).map (mkLikeRec key)) ((records.take s).map RawLike.userId)
          s (some T) reqs
        = .done (records.map (mkLikeRec key)) (some T)
            (reqs + (records.length - s + 49) / 50 + 1)
  | 0, s, reqs, hs, hfuel => by omega
  | fuel + 1, s, reqs, hs, hfuel => by
    rw [fetchLoop_sim_step records key T hnd fuel s reqs hs]
    rw [if_neg (by omega)]
    by_cases hend : records.length ≤ s + 50
    · cases fuel with
      | zero => omega
      | succ f =>
        rw [List.take_of_length_le (by omega : records.length ≤ s + 50)]
        rw [fetchLoop_sim_tail records key T f (s + 50) (reqs + 1) (by omega)]
        simp only [FetchOut.done.injEq, true_and, and_true]
        omega
    · rw [fetchLoop_sim_trunc records key T hnd hT fuel (s + 50) (reqs + 1) (by omega) (by omega)]
      simp only [FetchOut.done.injEq, true_and, and_true]
      omega

lemma fetchLoop_total_set (ep : Nat → PageOutcome) (key : String) (fuel s reqs : Nat)
    (all : List LikeRec) (seen : List String) (page : LikePage) (h : ep s = .ok page) :
    fetchLoop ep key (fuel + 1) all seen s none reqs =
      fetchLoop ep key (fuel + 1) all seen s (some page.likeCount) reqs := by
  rw [fetchLoop, fetchLoop]
  simp only [h, Option.getD_some, Option.getD_none]

/-- C1: against the simulated endpoint that never signals a last page,
reports the article's true distinct total on its first page, and repeats
already-returned records past the true end, `fetch_all_likes_for_article`
terminates within `ceil(total/50) + 1` page requests and returns exactly
the `total` distinct records (no two returned records share a liker id),
with the truncation condition false. -/
theorem pagination_safe_termination (records : List RawLike) (key : String)
    (hnd : (records.map RawLike.userId).Nodup) :
    ∃ reqs, reqs ≤ (records.length + 49) / 50 + 1
      ∧ fetch_all_likes_for_article (simEndpointT records records.length) key
          ((records.length + 49) / 50 + 1)
        = .done (records.map (mkLikeRec key)) (some records.length) reqs
      ∧ ((records.map (mkLikeRec key)).map LikeRec.userId).Nodup
      ∧ truncatedOf (FetchOut.done (records.map (mkLikeRec key))
          (some records.length) reqs) = false := by
  have hids : (records.map (mkLikeRec key)).map LikeRec.userId = records.map RawLike.userId := by
    rw [List.map_map]
    rfl
  rcases hrec : records with _ | ⟨r, rest⟩
  · exact ⟨1, by omega, rfl, by simp, rfl⟩
  · rw [← hrec]
    have hpos : 0 < records.length := by rw [hrec] ; simp
    refine ⟨(records.length + 49) / 50, by omega, ?_, by rw [hids] ; exact hnd,
      by simp [truncatedOf]⟩
    rw [fetch_all_likes_for_article]
    have hep0 : simEndpointT records records.length 0 =
        PageOutcome.ok ⟨servePage records 0 50, records.length⟩ := rfl
    rw [fetchLoop_total_set (simEndpointT records records.length) key
      ((records.length + 49) / 50) 0 0 [] [] _ hep0]
    have hmain := fetchLoop_sim_complete records key hnd ((records.length + 49) / 50 + 1) 0 0
      hpos (by omega)
    simpa using hmain

theorem pagination_safe_termination_witness :
    ∃ reqs, reqs ≤ (([⟨"u1", "", "", "", 0⟩] : List RawLike).length + 49) / 50 + 1
      ∧ fetch_all_likes_for_article
          (simEndpointT [⟨"u1", "", "", "", 0⟩] ([⟨"u1", "", "", "", 0⟩] : List RawLike).length)
          "k" ((([⟨"u1", "", "", "", 0⟩] : List RawLike).length + 49) / 50 + 1)
        = .done (([⟨"u1", "", "", "", 0⟩] : List RawLike).map (mkLikeRec "k"))
            (some ([⟨"u1", "", "", "", 0⟩] : List RawLike).length) reqs
      ∧ ((([⟨"u1", "", "", "", 0⟩] : List RawLike).map (mkLikeRec "k")).map LikeRec.userId).Nodup
      ∧ truncatedOf (FetchOut.done (([⟨"u1", "", "", "", 0⟩] : List RawLike).map (mkLikeRec "k"))
          (some ([⟨"u1", "", "", "", 0⟩] : List RawLike).length) reqs) = false :=
  pagination_safe_termination [⟨"u1", "", "", "", 0⟩] "k" (by decide)

/-- C5: against an endpoint whose reported total `T` is unreachable
(the distinct records run out before `T` is reached), collection stops
with exactly the endpoint's distinct records — strictly fewer than `T` —
and the truncation condition of the warning at line 103 is true, so the
degradation is reported rather than silent. -/
theorem truncation_signaling (records : List RawLike) (key : String) (T : Nat)
    (hnd : (records.map RawLike.userId).Nodup) (hT : records.length < T) :
    ∃ reqs, fetch_all_likes_for_article (simEndpointT records T) key
        ((records.length + 49) / 50 + 1 + 1)
      = .done (records.map (mkLikeRec key)) (some T) reqs
      ∧ (records.map (mkLikeRec key)).length = records.length
      ∧ records.length < T
      ∧ truncatedOf (FetchOut.done (records.map (mkLikeRec key)) (some T) reqs) = true := by
  have htr : truncatedOf (FetchOut.done (records.map (mkLikeRec key)) (some T) 0) = true := by
    simp only [truncatedOf, List.length_map]
    exact decide_eq_true hT
  rcases hrec : records with _ | ⟨r, rest⟩
  · refine ⟨1, rfl, by simp, by rw [hrec] at hT ; exact hT, ?_⟩
    simp only [truncatedOf, List.length_map, List.length_nil]
    rw [hrec] at hT
    exact decide_eq_true hT
  · rw [← hrec]
    have hpos : 0 < records.length := by rw [hrec] ; simp
    refine ⟨(records.length + 49) / 50 + 1, ?_, by simp, hT, ?_⟩
    · rw [fetch_all_likes_for_article]
      have hep0 : simEndpointT records T 0 =
          PageOutcome.ok ⟨servePage records 0 50, T⟩ := rfl
      rw [fetchLoop_total_set (simEndpointT records T) key
        ((records.length + 49) / 50 + 1) 0 0 [] [] _ hep0]
      have hmain := fetchLoop_sim_trunc records key T hnd hT
        ((records.length + 49) / 50 + 1 + 1) 0 0 hpos (by omega)
      simpa using hmain
    · simp only [truncatedOf, List.length_map]
      exact decide_eq_true hT

theorem truncation_signaling_witness :
    ∃ reqs, fetch_all_likes_for_article
        (simEndpointT [⟨"u1", "", "", "", 0⟩] 3) "k"
        ((([⟨"u1", "", "", "", 0⟩] : List RawLike).length + 49) / 50 + 1 + 1)
      = .done (([⟨"u1", "", "", "", 0⟩] : List RawLike).map (mkLikeRec "k")) (some 3) reqs
      ∧ (([⟨"u1", "", "", "", 0⟩] : List RawLike).map (mkLikeRec "k")).length
          = ([⟨"u1", "", "", "", 0⟩] : List RawLike).length
      ∧ ([⟨"u1", "", "", "", 0⟩] : List RawLike).length < 3
      ∧ truncatedOf (FetchOut.done (([⟨"u1", "", "", "", 0⟩] : List RawLike).map (mkLikeRec "k"))
          (some 3) reqs) = true :=
  truncation_signaling [⟨"u1", "", "", "", 0⟩] "k" 3 (by decide) (by decide)

lemma addLikes_inv (key : String) :
    ∀ (page : List RawLike) (all : List LikeRec) (seen : List String) (n : Nat),
      (all.map LikeRec.userId).Nodup →
      (∀ u ∈ all.map LikeRec.userId, u ∈ seen) →
      ((addLikes key page all seen n).1.map LikeRec.userId).Nodup ∧
        ∀ u ∈ (addLikes key page all seen n).1.map LikeRec.userId,
          u ∈ (addLikes key page all seen n).2.1
  | [], all, seen, n, h1, h2 => ⟨h1, h2⟩
  | r :: rest, all, seen, n, h1, h2 => by
    rw [addLikes]
    by_cases hin : r.userId ∈ seen
    · rw [if_pos hin]
      exact addLikes_inv key rest all seen n h1 h2
    · rw [if_neg hin]
      refine addLikes_inv key rest _ _ _ ?_ ?_
      · rw [List.map_append]
        rw [List.nodup_append]
        refine ⟨h1, List.nodup_singleton _, ?_⟩
        intro a ha hb
        have hb' : a = r.userId := by simpa [mkLikeRec] using hb
        exact hin (hb' ▸ h2 a ha)
      · intro u hu
        rw [List.map_append, List.mem_append] at hu
        rcases hu with h | h
        · exact List.mem_append.mpr (Or.inl (h2 u h))
        · have h' : u = r.userId := by simpa [mkLikeRec] using h
          exact List.mem_append.mpr (Or.inr (by simp [h']))

lemma fetchLoop_nodup (ep : Nat → PageOutcome) (key : String) :
    ∀ (fuel : Nat) (all : List LikeRec) (seen : List String) (s : Nat) (total : Option Nat)
      (reqs : Nat) (likes : List LikeRec) (t : Option Nat) (r : Nat),
      (all.map LikeRec.userId).Nodup →
      (∀ u ∈ all.map LikeRec.userId, u ∈ seen) →
      fetchLoop ep key fuel all seen s total reqs = .done likes t r →
      (likes.map LikeRec.userId).Nodup
  | 0, all, seen, s, total, reqs, likes, t, r, h1, h2, heq => by
    rw [fetchLoop] at heq
    cases heq
  | fuel + 1, all, seen, s, total, reqs, likes, t, r, h1, h2, heq => by
    rw [fetchLoop] at heq
    split at heq
    · cases heq
    · cases heq
      exact h1
    next page hep =>
      split at heq
      · cases heq
        exact h1
      · split at heq
        next all' seen' newN hadd =>
          dsimp only at heq
          split at heq
          · cases heq
            have hinv := addLikes_inv key page.likes all seen 0 h1 h2
            rw [hadd] at hinv
            exact hinv.1
          · have hinv := addLikes_inv key page.likes all seen 0 h1 h2
            rw [hadd] at hinv
            exact fetchLoop_nodup ep key fuel all' seen' (s + 50) _ (reqs + 1)
              likes t r hinv.1 hinv.2 heq

lemma fetch_all_nodup (ep : Nat → PageOutcome) (key : String) (fuel : Nat)
    (likes : List LikeRec) (t : Option Nat) (r : Nat)
    (heq : fetch_all_likes_for_article ep key fuel = .done likes t r) :
    (likes.map LikeRec.userId).Nodup := by
  exact fetchLoop_nodup ep key fuel [] [] 0 none 0 likes t r (by simp) (by simp) heq

lemma pairs_nodup (likes : List LikeRec) (hnd : (likes.map LikeRec.userId).Nodup) :
    (likes.map pairOf).Nodup := by
  have h : ((likes.map pairOf).map Prod.snd).Nodup := by
    rw [List.map_map]
    exact hnd
  exact List.Nodup.of_map _ h

lemma foldl_collectStepApi_none (ep : String → Nat → PageOutcome) (fuel : Nat) :
    ∀ keys : List String, keys.foldl (collectStepApi ep fuel) none = none
  | [] => rfl
  | k :: ks => by
    rw [List.foldl_cons]
    have hstep : collectStepApi ep fuel none k = none := rfl
    rw [hstep]
    exact foldl_collectStepApi_none ep fuel ks

lemma collectStepApi_fold_inv (ep : String → Nat → PageOutcome) (fuel : Nat)
    (existing0 : List (String × String)) :
    ∀ (keys : List String) (acc : List LikeRec) (res : List LikeRec × List (String × String)),
      (acc.map pairOf).Nodup →
      (∀ p ∈ acc.map pairOf, p ∉ existing0) →
      keys.foldl (collectStepApi ep fuel) (some (acc, existing0 ++ acc.map pairOf)) = some res →
      (res.1.map pairOf).Nodup ∧ ∀ p ∈ res.1.map pairOf, p ∉ existing0
  | [], acc, res, h1, h2, heq => by
    cases heq
    exact ⟨h1, h2⟩
  | k :: ks, acc, res, h1, h2, heq => by
    rw [List.foldl_cons] at heq
    cases hf : fetch_all_likes_for_article (ep k) k fuel with
    | raised rr =>
      simp only [collectStepApi, hf] at heq
      rw [foldl_collectStepApi_none] at heq
      cases heq
    | noFuel =>
      simp only [collectStepApi, hf] at heq
      rw [foldl_collectStepApi_none] at heq
      cases heq
    | done likes tt rr =>
      simp only [collectStepApi, hf] at heq
      have hstate : (existing0 ++ acc.map pairOf) ++
          (likes.filter (fun l => decide (pairOf l ∉ existing0 ++ acc.map pairOf))).map pairOf =
          existing0 ++ (acc ++
            likes.filter (fun l => decide (pairOf l ∉ existing0 ++ acc.map pairOf))).map pairOf := by
        rw [List.map_append, List.append_assoc]
      rw [hstate] at heq
      refine collectStepApi_fold_inv ep fuel existing0 ks _ res ?_ ?_ heq
      · rw [List.map_append, List.nodup_append]
        refine ⟨h1, ?_, ?_⟩
        · have hlikes := fetch_all_nodup (ep k) k fuel likes tt rr hf
          refine pairs_nodup _ (hlikes.sublist ?_)
          exact List.Sublist.map _ (List.filter_sublist likes)
        · intro p hp hq
          obtain ⟨l, hl, rfl⟩ := List.mem_map.mp hq
          have hcond := (List.mem_filter.mp hl).2
          rw [decide_eq_true_eq] at hcond
          exact hcond (List.mem_append.mpr (Or.inr hp))
      · intro p hp
        rw [List.map_append, List.mem_append] at hp
        rcases hp with hp | hp
        · exact h2 p hp
        · obtain ⟨l, hl, rfl⟩ := List.mem_map.mp hp
          have hcond := (List.mem_filter.mp hl).2
          rw [decide_eq_true_eq] at hcond
          intro hmem
          exact hcond (List.mem_append.mpr (Or.inl hmem))

lemma likeRows_filterMap_rowKey (newLikes : List LikeRec) :
    (newLikes.map likeToRow).filterMap rowKey = newLikes.map pairOf := by
  rw [List.filterMap_map, show rowKey ∘ likeToRow = some ∘ pairOf from rfl,
    List.filterMap_eq_map]

lemma append_preserves_noDupKeys (rows : List (List String)) (newLikes : List LikeRec)
    (h : noDupKeys (rows.drop 1))
    (hnd : (newLikes.map pairOf).Nodup)
    (hdisj : ∀ p ∈ newLikes.map pairOf, p ∉ (load_existing_likes (.content rows)).1) :
    noDupKeys ((append_likes_csv rows newLikes).drop 1) := by
  rw [append_likes_csv]
  by_cases hnew : newLikes.isEmpty
  · rw [if_pos hnew]
    exact h
  · rw [if_neg hnew]
    by_cases hrows : rows.isEmpty
    · rw [if_pos hrows]
      rw [noDupKeys]
      simp only [List.singleton_append, List.drop_succ_cons, List.drop_zero,
        likeRows_filterMap_rowKey]
      exact hnd
    · rw [if_neg hrows]
      obtain ⟨x, body, rfl⟩ : ∃ x body, rows = x :: body := by
        cases rows with
        | nil => simp at hrows
        | cons x body => exact ⟨x, body, rfl⟩
      rw [noDupKeys]
      simp only [List.cons_append, List.drop_succ_cons, List.drop_zero,
        List.filterMap_append, likeRows_filterMap_rowKey]
      rw [List.nodup_append]
      refine ⟨h, hnd, ?_⟩
      intro p hp hq
      exact hdisj p hq hp

/-- C2: any collection run driven over the persisted `likes.csv` rows
(baseline and incremental runs perform the same per-article fold, only
over different key lists) preserves the key-uniqueness invariant: if no
two body rows of the file share `(note_key, like_user_id)`, the same
holds after the run, because the run appends only records whose key is
neither in the index loaded from the file nor among the records already
appended earlier in the same run. -/
theorem run_preserves_key_uniqueness
    (ep : String → Nat → PageOutcome) (fuel : Nat) (keys : List String)
    (rows out : List (List String))
    (hrun : run_collect_api ep fuel keys rows = some out)
    (h : noDupKeys (rows.drop 1)) :
    noDupKeys (out.drop 1)
    ∧ ∃ newLikes, out = append_likes_csv rows newLikes
        ∧ (newLikes.map pairOf).Nodup
        ∧ ∀ p ∈ newLikes.map pairOf, p ∉ (load_existing_likes (.content rows)).1 := by
  rw [run_collect_api] at hrun
  cases hres : keys.foldl (collectStepApi ep fuel)
      (some (([] : List LikeRec), (load_existing_likes (.content rows)).1)) with
  | none =>
    rw [hres] at hrun
    cases hrun
  | some r0 =>
    rw [hres] at hrun
    have hout : out = append_likes_csv rows r0.1 := by
      cases hrun
      rfl
    have hinv := collectStepApi_fold_inv ep fuel (load_existing_likes (.content rows)).1
      keys [] r0 (by simp) (by simp) (by simpa using hres)
    subst hout
    exact ⟨append_preserves_noDupKeys rows r0.1 h hinv.1 hinv.2,
      r0.1, rfl, hinv.1, hinv.2⟩

theorem run_preserves_key_uniqueness_witness :
    noDupKeys ((append_likes_csv [] [mkLikeRec "a" ⟨"u1", "", "", "", 0⟩]).drop 1)
    ∧ ∃ newLikes, append_likes_csv [] [mkLikeRec "a" ⟨"u1", "", "", "", 0⟩]
          = append_likes_csv [] newLikes
        ∧ (newLikes.map pairOf).Nodup
        ∧ ∀ p ∈ newLikes.map pairOf, p ∉ (load_existing_likes (.content [])).1 :=
  run_preserves_key_uniqueness (fun _ => simEndpointT [⟨"u1", "", "", "", 0⟩] 1) 2 ["a"]
    [] (append_likes_csv [] [mkLikeRec "a" ⟨"u1", "", "", "", 0⟩]) (by decide) (by decide)

lemma lookupEntry_updateCache (k : String) (v : CacheEntry) :
    ∀ c : List (String × CacheEntry), lookupEntry (updateCache c k v) k = some v
  | [] => by simp [updateCache, lookupEntry]
  | p :: rest => by
    have ih := lookupEntry_updateCache k v rest
    by_cases hpk : p.1 = k
    · rw [updateCache, if_pos (by rw [List.find?_cons_of_pos _ (by simp [hpk])]; rfl)]
      rw [List.map_cons, if_pos (by simp [hpk])]
      rw [lookupEntry, List.find?_cons_of_pos _ (by simp)]
      rfl
    · have hfind : (p :: rest).find? (fun q => q.1 == k) = rest.find? (fun q => q.1 == k) :=
        List.find?_cons_of_neg _ (by simp [hpk])
      rw [updateCache, hfind]
      by_cases hsome : (rest.find? (fun q => q.1 == k)).isSome
      · rw [if_pos hsome, List.map_cons, if_neg (by simp [hpk])]
        rw [lookupEntry, List.find?_cons_of_neg _ (by simp [hpk]), ← lookupEntry]
        rw [updateCache, if_pos hsome] at ih
        exact ih
      · rw [if_neg hsome, List.cons_append]
        rw [lookupEntry, List.find?_cons_of_neg _ (by simp [hpk]), ← lookupEntry]
        rw [updateCache, if_neg hsome] at ih
        exact ih

/-- C9: for a cached entry whose `fetched_at` parses as day `f` and a
`today` parsing as day `t`, the entry is used without a refetch exactly
when fewer than 7 days elapsed (`t - f < 7`): the processing step either
serves the cached dates unchanged (strictly less than 7 days old, e.g.
6), or — at 7 or more days, e.g. 8 — behaves as for an absent entry,
refetching and storing the refreshed entry with `fetched_at = today`.
An entry with no `fetched_at` at all is always stale. -/
theorem cache_staleness_policy
    (detail : String → NoteDates) (parse : String → Option Int)
    (calcAge : String → String → Option Int) (today : String)
    (cache : List (String × CacheEntry)) (note : NoteInfo)
    (e : CacheEntry) (f t : Int)
    (hl : lookupEntry cache note.key = some e)
    (hne : e.fetched_at ≠ "")
    (hf : parse e.fetched_at = some f)
    (ht : parse today = some t) :
    processNote detail parse calcAge today cache note =
      (if 7 ≤ t - f then
        ({ note with published_at := (detail note.key).published_at,
                     created_at := (detail note.key).created_at,
                     updated_at := (detail note.key).updated_at,
                     age_days := calcAge today (detail note.key).published_at },
         updateCache cache note.key
           ⟨(detail note.key).published_at, (detail note.key).created_at,
            (detail note.key).updated_at, today⟩, true)
      else
        ({ note with published_at := e.published_at, created_at := e.created_at,
                     updated_at := e.updated_at,
                     age_days := calcAge today e.published_at }, cache, false))
    ∧ ((processNote detail parse calcAge today cache note).2.2 = false ↔ t - f < 7)
    ∧ lookupEntry (processNote detail parse calcAge today cache note).2.1 note.key =
        some (if 7 ≤ t - f then
          ⟨(detail note.key).published_at, (detail note.key).created_at,
           (detail note.key).updated_at, today⟩ else e)
    ∧ isCacheStale parse { e with fetched_at := "" } today = true := by
  have hstale : isCacheStale parse e today = decide (7 ≤ t - f) := by
    rw [isCacheStale, if_neg hne, hf, ht]
  have hmain : processNote detail parse calcAge today cache note =
      (if 7 ≤ t - f then
        ({ note with published_at := (detail note.key).published_at,
                     created_at := (detail note.key).created_at,
                     updated_at := (detail note.key).updated_at,
                     age_days := calcAge today (detail note.key).published_at },
         updateCache cache note.key
           ⟨(detail note.key).published_at, (detail note.key).created_at,
            (detail note.key).updated_at, today⟩, true)
      else
        ({ note with published_at := e.published_at, created_at := e.created_at,
                     updated_at := e.updated_at,
                     age_days := calcAge today e.published_at }, cache, false)) := by
    simp only [processNote, hl, hstale, decide_eq_true_eq]
  refine ⟨hmain, ?_, ?_, rfl⟩
  · rw [hmain]
    by_cases hc : 7 ≤ t - f
    · rw [if_pos hc]
      constructor
      · intro hfalse
        cases hfalse
      · intro hlt
        omega
    · rw [if_neg hc]
      constructor
      · intro _
        omega
      · intro _
        rfl
  · rw [hmain]
    by_cases hc : 7 ≤ t - f
    · rw [if_pos hc, if_pos hc]
      exact lookupEntry_updateCache note.key _ cache
    · rw [if_neg hc, if_neg hc]
      exact hl

theorem cache_staleness_policy_witness :
    ((processNote (fun _ => ⟨"P", "C", "U"⟩)
        (fun s => if s = "2024-01-01" then some 0
          else if s = "2024-01-07" then some 6
          else if s = "2024-01-09" then some 8 else none)
        (fun _ _ => none) "2024-01-09"
        [("k", ⟨"p", "c", "u", "2024-01-01"⟩)] ⟨"k", "", "", "", none⟩).2.2 = false
      ↔ (8 : Int) - 0 < 7)
    ∧ ((processNote (fun _ => ⟨"P", "C", "U"⟩)
        (fun s => if s = "2024-01-01" then some 0
          else if s = "2024-01-07" then some 6
          else if s = "2024-01-09" then some 8 else none)
        (fun _ _ => none) "2024-01-07"
        [("k", ⟨"p", "c", "u", "2024-01-01"⟩)] ⟨"k", "", "", "", none⟩).2.2 = false
      ↔ (6 : Int) - 0 < 7) :=
  ⟨(cache_staleness_policy (fun _ => ⟨"P", "C", "U"⟩)
      (fun s => if s = "2024-01-01" then some 0
        else if s = "2024-01-07" then some 6
        else if s = "2024-01-09" then some 8 else none)
      (fun _ _ => none) "2024-01-09"
      [("k", ⟨"p", "c", "u", "2024-01-01"⟩)] ⟨"k", "", "", "", none⟩
      ⟨"p", "c", "u", "2024-01-01"⟩ 0 8 (by decide) (by decide) (by decide) (by decide)).2.1,
   (cache_staleness_policy (fun _ => ⟨"P", "C", "U"⟩)
      (fun s => if s = "2024-01-01" then some 0
        else if s = "2024-01-07" then some 6
        else if s = "2024-01-09" then some 8 else none)
      (fun _ _ => none) "2024-01-07"
      [("k", ⟨"p", "c", "u", "2024-01-01"⟩)] ⟨"k", "", "", "", none⟩
      ⟨"p", "c", "u", "2024-01-01"⟩ 0 6 (by decide) (by decide) (by decide) (by decide)).2.1⟩
